import Mathlib

/-!
Verification of the feed aggregation and optimistic interaction logic of a
small social-network application (Next.js + Supabase).  The definitions
below are a shallow embedding of the TypeScript route handlers and React
component handlers; theorems settle the specified properties against them.

Embedded source locations:
* `src/app/api/likes/route.ts` : POST (add like), DELETE (remove like),
  GET /api/posts (feed page with aggregation), POST /api/posts.
* `src/app/api/comments/route.ts` : POST (add comment).
* `src/components/post/PostFeed.tsx` : `fetchPosts` pager update.
* `src/components/post/PostCard.tsx` : `handleLikeClick`,
  `handleImageClick`, `handleCommentAdded`, `handleCommentDeleted`.
* `src/supabase/migrations/*` : table shapes and the UNIQUE
  (post_id, user_id) constraint on likes.
-/

namespace MySns

/-- Row of the posts table (fields relevant to feed ordering and joins). -/
structure PostRow where
  id : Nat
  userId : Nat
  createdAt : Nat
deriving Repr, DecidableEq

/-- Row of the likes table.  The migration declares
CONSTRAINT likes_unique_post_user UNIQUE (post_id, user_id). -/
structure LikeRow where
  id : Nat
  postId : Nat
  userId : Nat
deriving Repr, DecidableEq

/-- Row of the comments table. -/
structure CommentRow where
  id : Nat
  postId : Nat
  userId : Nat
  content : String
  createdAt : Nat
deriving Repr, DecidableEq

/-- The persistent store: the four relations the route handlers touch.
Users are represented by their ids (the clerk-id to supabase-id lookup is
collapsed to membership in this list). -/
structure DB where
  users : List Nat
  posts : List PostRow
  likes : List LikeRow
  comments : List CommentRow
deriving Repr, DecidableEq

/-- Result of a like mutation endpoint: HTTP status, the store after the
call, the number of storage operations performed, and the like record
returned in the body (when one is). -/
structure LikeApiResult where
  status : Nat
  db : DB
  storageOps : Nat
  like : Option LikeRow
deriving Repr, DecidableEq

/-- Whether the likes relation already holds a row for (postId, userId).
The insert in the POST handler raises error code 23505 exactly when this
holds, by the UNIQUE (post_id, user_id) constraint. -/
def hasLike (db : DB) (postId userId : Nat) : Bool :=
  db.likes.any fun l => l.postId == postId && l.userId == userId

/-- Number of persisted like rows for the pair (postId, userId). -/
def likeCountFor (db : DB) (postId userId : Nat) : Nat :=
  (db.likes.filter fun l => l.postId == postId && l.userId == userId).length

/-- POST /api/likes (src/app/api/likes/route.ts).  Auth check, user lookup,
post lookup, insert; a uniqueness violation (23505) maps to 409; a created
like is returned with NextResponse.json and no explicit status, hence 200.
`newLikeId` stands for the id the database generates for the new row. -/
def likesPost (db : DB) (auth : Option Nat) (postId : Nat) (newLikeId : Nat) :
    LikeApiResult :=
  match auth with
  | none => ⟨401, db, 0, none⟩
  | some uid =>
    if db.users.contains uid then
      if db.posts.any (fun p => p.id == postId) then
        if hasLike db postId uid then
          ⟨409, db, 3, none⟩
        else
          let row : LikeRow := ⟨newLikeId, postId, uid⟩
          ⟨200, { db with likes := db.likes ++ [row] }, 3, some row⟩
      else ⟨404, db, 2, none⟩
    else ⟨404, db, 1, none⟩

/-- DELETE /api/likes/[postId] (src/app/api/likes/route.ts).  The like
lookup is scoped by both post_id and the caller user_id; when it finds a
row the handler re-checks ownership (403 branch) and then deletes by id. -/
def likesDelete (db : DB) (auth : Option Nat) (postId : Nat) : LikeApiResult :=
  match auth with
  | none => ⟨401, db, 0, none⟩
  | some uid =>
    if db.users.contains uid then
      match db.likes.find? (fun l => l.postId == postId && l.userId == uid) with
      | none => ⟨404, db, 2, none⟩
      | some likeRow =>
        if likeRow.userId != uid then
          ⟨403, db, 2, none⟩
        else
          ⟨200, { db with likes := db.likes.filter (fun l => l.id != likeRow.id) },
            3, none⟩
    else ⟨404, db, 1, none⟩

/-- A list with no element satisfying the predicate filters to nil. -/
theorem filter_eq_nil_of_any_false {α : Type} (p : α → Bool) (l : List α)
    (h : l.any p = false) : l.filter p = [] := by
  induction l with
  | nil => rfl
  | cons a t ih =>
    simp only [List.any_cons, Bool.or_eq_false_iff] at h
    simp [List.filter_cons, h.1, ih h.2]

/-- Example store: users 1 and 2, one post (id 10) by user 2, no likes. -/
def exDb : DB := ⟨[1, 2], [⟨10, 2, 5⟩], [], []⟩

/-- Example store in which the only like on post 10 belongs to user 2. -/
def exDbLiked : DB := ⟨[1, 2], [⟨10, 2, 5⟩], [⟨50, 10, 2⟩], []⟩

/-- C2: addLike is idempotent.  Starting from a store where the caller and
the post exist and the pair is not yet liked, calling the POST handler
twice leaves exactly one persisted like row for the pair; the second call
answers 409 (uniqueness violation 23505 mapped to Conflict) and does not
change the store. -/
theorem c2_addLike_idempotent (db : DB) (uid pid id1 id2 : Nat)
    (hu : uid ∈ db.users)
    (hp : db.posts.any (fun p => p.id == pid) = true)
    (hl : hasLike db pid uid = false) :
    (likesPost (likesPost db (some uid) pid id1).db (some uid) pid id2).status = 409 ∧
    (likesPost (likesPost db (some uid) pid id1).db (some uid) pid id2).db =
      (likesPost db (some uid) pid id1).db ∧
    likeCountFor (likesPost (likesPost db (some uid) pid id1).db (some uid) pid id2).db
      pid uid = 1 := by
  have h1 : likesPost db (some uid) pid id1 =
      ⟨200, { db with likes := db.likes ++ [⟨id1, pid, uid⟩] }, 3,
        some ⟨id1, pid, uid⟩⟩ := by
    simp [likesPost, hu, hp, hl]
  have h2 : hasLike { db with likes := db.likes ++ [⟨id1, pid, uid⟩] } pid uid = true := by
    simp [hasLike, List.any_append]
  have hnil : db.likes.filter (fun l => l.postId == pid && l.userId == uid) = [] :=
    filter_eq_nil_of_any_false _ _ hl
  rw [h1]
  simp [likesPost, hu, hp, h2, likeCountFor, List.filter_append, hnil]

/-- C2 witness: the idempotency theorem applied to the concrete store. -/
theorem c2_addLike_idempotent_witness :
    (likesPost (likesPost exDb (some 1) 10 100).db (some 1) 10 101).status = 409 ∧
    (likesPost (likesPost exDb (some 1) 10 100).db (some 1) 10 101).db =
      (likesPost exDb (some 1) 10 100).db ∧
    likeCountFor (likesPost (likesPost exDb (some 1) 10 100).db (some 1) 10 101).db
      10 1 = 1 :=
  c2_addLike_idempotent exDb 1 10 100 101 (by decide) (by decide) (by decide)

/-- C3 counterexample: in `exDbLiked` the only like on post 10 belongs to
user 2, yet a DELETE by user 1 answers 404, not the claimed 403; the like
row is untouched.  Refutes the claim that a non-owner removal signals
Forbidden. -/
theorem c3_removeLike_nonowner_counterexample :
    (∃ l ∈ exDbLiked.likes, l.postId = 10 ∧ l.userId ≠ 1) ∧
    (likesDelete exDbLiked (some 1) 10).status = 404 ∧
    (likesDelete exDbLiked (some 1) 10).status ≠ 403 ∧
    (likesDelete exDbLiked (some 1) 10).db = exDbLiked := by decide

/-- C3 amended: when a like row for the target post exists but belongs to a
different user than the caller, the DELETE handler signals NotFound (404):
the lookup is scoped by the caller user id, so the foreign like row is
never visible and the in-handler Forbidden branch cannot fire.  The store
is left untouched. -/
theorem c3_removeLike_nonowner_notFound (db : DB) (uid pid : Nat)
    (hu : uid ∈ db.users)
    (_hex : db.likes.any (fun l => l.postId == pid) = true)
    (hne : ∀ l ∈ db.likes, l.postId = pid → l.userId ≠ uid) :
    (likesDelete db (some uid) pid).status = 404 ∧
    (likesDelete db (some uid) pid).db = db := by
  have hfind : db.likes.find? (fun l => l.postId == pid && l.userId == uid) = none := by
    rw [List.find?_eq_none]
    intro l hl
    simp only [Bool.and_eq_true, beq_iff_eq, not_and]
    exact fun hpost huid => hne l hl hpost huid
  simp [likesDelete, hu, hfind]

/-- C3 witness: the amended theorem applied to the concrete store. -/
theorem c3_removeLike_nonowner_witness :
    (likesDelete exDbLiked (some 1) 10).status = 404 ∧
    (likesDelete exDbLiked (some 1) 10).db = exDbLiked :=
  c3_removeLike_nonowner_notFound exDbLiked 1 10 (by decide) (by decide) (by decide)

/-- C7 counterexample: a like that is actually created is answered with
status 200 (NextResponse.json with no explicit status), not the claimed
201, even though the created record is in the body. -/
theorem c7_addLike_status_counterexample :
    (likesPost exDb (some 1) 10 100).status = 200 ∧
    (likesPost exDb (some 1) 10 100).status ≠ 201 ∧
    (likesPost exDb (some 1) 10 100).like = some ⟨100, 10, 1⟩ := by decide

/-- C7 amended: a successful addLike answers 200 together with the created
like record; a duplicate attempt answers 409. -/
theorem c7_addLike_status (db : DB) (uid pid nid : Nat)
    (hu : uid ∈ db.users)
    (hp : db.posts.any (fun p => p.id == pid) = true) :
    (hasLike db pid uid = false →
      (likesPost db (some uid) pid nid).status = 200 ∧
      (likesPost db (some uid) pid nid).like = some ⟨nid, pid, uid⟩) ∧
    (hasLike db pid uid = true → (likesPost db (some uid) pid nid).status = 409) := by
  constructor <;> intro hl <;> simp [likesPost, hu, hp, hl]

/-- C7 witness: the amended status theorem applied to the concrete store,
on both the fresh-like and the duplicate branch. -/
theorem c7_addLike_status_witness :
    ((likesPost exDb (some 1) 10 100).status = 200 ∧
      (likesPost exDb (some 1) 10 100).like = some ⟨100, 10, 1⟩) ∧
    (likesPost exDbLiked (some 2) 10 100).status = 409 :=
  ⟨(c7_addLike_status exDb 1 10 100 (by decide) (by decide)).1 (by decide),
   (c7_addLike_status exDbLiked 2 10 100 (by decide) (by decide)).2 (by decide)⟩

/-- Recency order on comments: ORDER BY created_at DESC. -/
def commentRecency (a b : CommentRow) : Prop := b.createdAt ≤ a.createdAt

instance : DecidableRel commentRecency := fun a b =>
  inferInstanceAs (Decidable (b.createdAt ≤ a.createdAt))

instance : IsTotal CommentRow commentRecency :=
  ⟨fun a b => Nat.le_total b.createdAt a.createdAt⟩

instance : IsTrans CommentRow commentRecency :=
  ⟨fun _ _ _ h1 h2 => Nat.le_trans h2 h1⟩

/-- Recency order on posts: ORDER BY created_at DESC. -/
def postRecency (a b : PostRow) : Prop := b.createdAt ≤ a.createdAt

instance : DecidableRel postRecency := fun a b =>
  inferInstanceAs (Decidable (b.createdAt ≤ a.createdAt))

instance : IsTotal PostRow postRecency :=
  ⟨fun a b => Nat.le_total b.createdAt a.createdAt⟩

instance : IsTrans PostRow postRecency :=
  ⟨fun _ _ _ h1 h2 => Nat.le_trans h2 h1⟩

/-- Comments of the store sorted newest first. -/
def sortCommentsDesc (l : List CommentRow) : List CommentRow :=
  List.insertionSort commentRecency l

/-- Posts of the store sorted newest first. -/
def sortPostsDesc (l : List PostRow) : List PostRow :=
  List.insertionSort postRecency l

/-- Comment preview for one post as computed by GET /api/posts: the rows of
the comments table for that post, ordered by created_at descending,
limited to 2. -/
def serverCommentsPreview (db : DB) (postId : Nat) : List CommentRow :=
  (sortCommentsDesc (db.comments.filter fun c => c.postId == postId)).take 2

/-- Aggregated post as assembled by GET /api/posts. -/
structure PostWithDetails where
  id : Nat
  userId : Nat
  createdAt : Nat
  likesCount : Nat
  commentsCount : Nat
  isLiked : Bool
  commentsPreview : List CommentRow
deriving Repr, DecidableEq

/-- Response body of GET /api/posts: the enriched page and a `total` field
set to the length of the returned page (postsWithDetails.length). -/
structure FeedResponse where
  posts : List PostWithDetails
  total : Nat
deriving Repr, DecidableEq

/-- Viewer resolution in GET /api/posts: the clerk identity is optional,
and when present it still must resolve in the users table, else the
handler proceeds with no current user. -/
def resolveViewer (db : DB) (auth : Option Nat) : Option Nat :=
  match auth with
  | none => none
  | some uid => if db.users.contains uid then some uid else none

/-- GET /api/posts (src/app/api/likes/route.ts, feed GET).  Posts are
ordered by created_at descending and sliced with range(offset,
offset+limit-1); each post is enriched with like count, comment count,
viewer-liked flag (false when anonymous) and the 2-comment preview.  The
`total` field of the response is the length of the returned page. -/
def postsGet (db : DB) (auth : Option Nat) (limit offset : Nat) : FeedResponse :=
  let currentUserId := resolveViewer db auth
  let sorted := sortPostsDesc db.posts
  let page := (sorted.drop offset).take limit
  let details := page.map fun p =>
    { id := p.id
      userId := p.userId
      createdAt := p.createdAt
      likesCount := (db.likes.filter fun l => l.postId == p.id).length
      commentsCount := (db.comments.filter fun c => c.postId == p.id).length
      isLiked :=
        match currentUserId with
        | none => false
        | some uid => db.likes.any fun l => l.userId == uid && l.postId == p.id
      commentsPreview := serverCommentsPreview db p.id : PostWithDetails }
  { posts := details, total := details.length }

/-- Result of the comment POST endpoint. -/
structure CommentApiResult where
  status : Nat
  db : DB
  storageOps : Nat
  comment : Option CommentRow
deriving Repr, DecidableEq

/-- POST /api/comments (src/app/api/comments/route.ts).  Auth check, then
content validation (non-empty after trim, at most 1000 characters) before
any storage access, then user lookup, post lookup and insert of the
trimmed content.  `now` and `newId` stand for the database-assigned
timestamp and id. -/
def commentsPost (db : DB) (auth : Option Nat) (postId : Nat) (content : String)
    (now newId : Nat) : CommentApiResult :=
  match auth with
  | none => ⟨401, db, 0, none⟩
  | some uid =>
    if content.trim.length == 0 then ⟨400, db, 0, none⟩
    else if 1000 < content.length then ⟨400, db, 0, none⟩
    else if db.users.contains uid then
      if db.posts.any (fun p => p.id == postId) then
        let row : CommentRow := ⟨newId, postId, uid, content.trim, now⟩
        ⟨201, { db with comments := db.comments ++ [row] }, 4, some row⟩
      else ⟨404, db, 2, none⟩
    else ⟨404, db, 1, none⟩

/-- Page size of the feed pager (src/components/post/PostFeed.tsx). -/
def POSTS_PER_PAGE : Nat := 10

/-- Pager fields updated by fetchPosts after a response is processed. -/
structure PagerState where
  offset : Nat
  hasMore : Bool
deriving Repr, DecidableEq

/-- fetchPosts response processing (src/components/post/PostFeed.tsx lines
83-91): newOffset = currentOffset + count; when the response carries a
positive total, hasMore requires newOffset < total in addition to a full
page, otherwise a full page alone. -/
def fetchPostsUpdate (currentOffset count total : Nat) : PagerState :=
  let newOffset := currentOffset + count
  let hasMoreData :=
    if 0 < total then decide (newOffset < total) && (count == POSTS_PER_PAGE)
    else count == POSTS_PER_PAGE
  ⟨newOffset, hasMoreData⟩

/-- Example store for the pager: one user and eleven posts, more than one
full page. -/
def exFeedDb : DB :=
  ⟨[1], (List.range 11).map (fun i => ⟨i + 1, 1, i⟩), [], []⟩

/-- C1: the pager is fed `total = page length` by the server, so after the
initial fetch of a store holding eleven posts the page has exactly
POSTS_PER_PAGE rows and yet hasMore is computed as false: newOffset (10)
is not below total (10).  The claim says exactly limit rows must leave
hasMore true; the code contradicts it on every non-empty page. -/
theorem c1_pager_stops_after_full_page :
    exFeedDb.posts.length = 11 ∧
    (postsGet exFeedDb none POSTS_PER_PAGE 0).posts.length = POSTS_PER_PAGE ∧
    (postsGet exFeedDb none POSTS_PER_PAGE 0).total = POSTS_PER_PAGE ∧
    (fetchPostsUpdate 0 (postsGet exFeedDb none POSTS_PER_PAGE 0).posts.length
      (postsGet exFeedDb none POSTS_PER_PAGE 0).total).hasMore = false := by decide

/-- C8: anonymous viewer.  With no authenticated identity the like POST
and the comment POST answer 401 with the store untouched and zero storage
operations performed, and every aggregated post of a page has the
viewer-liked flag false. -/
theorem c8_anonymous_viewer (db : DB) (pid nid cid now limit offset : Nat)
    (content : String) :
    likesPost db none pid nid = ⟨401, db, 0, none⟩ ∧
    commentsPost db none pid content now cid = ⟨401, db, 0, none⟩ ∧
    ∀ p ∈ (postsGet db none limit offset).posts, p.isLiked = false := by
  refine ⟨rfl, rfl, ?_⟩
  intro p hp
  simp only [postsGet, resolveViewer, List.mem_map] at hp
  obtain ⟨q, _, rfl⟩ := hp
  rfl

/-- C8 witness: the anonymous-viewer theorem applied to the concrete store
with a like present, so the flag would be true for a signed-in owner. -/
theorem c8_anonymous_viewer_witness :
    likesPost exDbLiked none 10 100 = ⟨401, exDbLiked, 0, none⟩ ∧
    commentsPost exDbLiked none 10 "hi" 7 200 = ⟨401, exDbLiked, 0, none⟩ ∧
    ((postsGet exDbLiked none 10 0).posts.all fun p => p.isLiked == false) = true := by
  have h := c8_anonymous_viewer exDbLiked 10 100 200 7 10 0 "hi"
  refine ⟨h.1, h.2.1, ?_⟩
  rw [List.all_eq_true]
  intro p hp
  simp [h.2.2 p hp]

/-- Local comment-added handler (PostCard.handleCommentAdded): prepend the
new comment and keep the two most recent entries. -/
def handleCommentAdded (preview : List CommentRow) (newComment : CommentRow) :
    List CommentRow :=
  (newComment :: preview).take 2

/-- Local comment-deleted handler, preview part
(PostCard.handleCommentDeleted): drop the deleted comment. -/
def handleCommentDeleted (preview : List CommentRow) (commentId : Nat) :
    List CommentRow :=
  preview.filter fun c => c.id != commentId

/-- Preview invariant: the preview is the block of most recent comments of
the newest-first live list, of length at most 2. -/
def previewInv (live preview : List CommentRow) : Prop :=
  preview = live.take preview.length ∧ preview.length ≤ 2

/-- C9: the comment preview invariant holds at the aggregation reader and
is preserved by both local handlers.  Server side, the preview of a post
is a most-recent block (length at most 2, sorted newest first) of the live
comments of that post, and mentions only rows of the comments table.
Client side, the comment-added handler keeps the invariant against the
live list extended with the new (newest) comment, and the comment-deleted
handler keeps it against the live list with the deleted row removed while
the deleted id never remains in the preview. -/
theorem c9_commentPreview_invariant :
    (∀ (db : DB) (pid : Nat),
      previewInv (sortCommentsDesc (db.comments.filter fun c => c.postId == pid))
          (serverCommentsPreview db pid) ∧
        List.Sorted commentRecency (serverCommentsPreview db pid) ∧
        ∀ c ∈ serverCommentsPreview db pid, c ∈ db.comments ∧ c.postId = pid) ∧
    (∀ (live preview : List CommentRow) (newComment : CommentRow),
      previewInv live preview →
        previewInv (newComment :: live) (handleCommentAdded preview newComment)) ∧
    (∀ (live preview : List CommentRow) (commentId : Nat),
      previewInv live preview →
        previewInv (live.filter fun c => c.id != commentId)
            (handleCommentDeleted preview commentId) ∧
          ∀ c ∈ handleCommentDeleted preview commentId, c.id ≠ commentId) ∧
    (∀ (live preview : List CommentRow),
      List.Sorted commentRecency live → previewInv live preview →
        List.Sorted commentRecency preview) := by
  refine ⟨?_, ?_, ?_, ?_⟩
  · intro db pid
    refine ⟨⟨?_, ?_⟩, ?_, ?_⟩
    · rw [serverCommentsPreview, List.length_take, List.take_eq_take]
      omega
    · rw [serverCommentsPreview, List.length_take]
      omega
    · exact List.Pairwise.sublist (List.take_sublist _ _)
        (List.sorted_insertionSort commentRecency _)
    · intro c hc
      have hmem : c ∈ db.comments.filter fun x => x.postId == pid := by
        have h1 : c ∈ sortCommentsDesc (db.comments.filter fun x => x.postId == pid) :=
          List.mem_of_mem_take hc
        exact (List.perm_insertionSort commentRecency _).mem_iff.mp h1
      obtain ⟨hm, hq⟩ := List.mem_filter.mp hmem
      exact ⟨hm, by simpa using hq⟩
  · rintro live preview newComment ⟨hpre, hlen⟩
    match preview, hpre, hlen with
    | [], _, _ => exact ⟨rfl, List.length_take_le _ _⟩
    | [a], hpre, _ =>
      simp only [List.length_cons, List.length_nil, Nat.zero_add] at hpre
      refine ⟨?_, List.length_take_le _ _⟩
      show [newComment, a] = (newComment :: live).take 2
      rw [show (newComment :: live).take 2 = newComment :: live.take 1 from rfl, ← hpre]
    | a :: b :: rest, hpre, hlen =>
      have hrest : rest = [] := by
        simp only [List.length_cons] at hlen
        exact List.length_eq_zero.mp (by omega)
      subst hrest
      simp only [List.length_cons, List.length_nil, Nat.zero_add] at hpre
      refine ⟨?_, List.length_take_le _ _⟩
      show [newComment, a] = (newComment :: live).take 2
      rw [show (newComment :: live).take 2 = newComment :: live.take 1 from rfl]
      have h1 : (live.take 2).take 1 = [a] := by rw [← hpre]; simp
      rw [List.take_take] at h1
      have h2 : live.take 1 = [a] := by simpa using h1
      rw [h2]
  · rintro live preview commentId ⟨hpre, hlen⟩
    have hsplit : live.filter (fun c => c.id != commentId) =
        handleCommentDeleted preview commentId ++
          (live.drop preview.length).filter (fun c => c.id != commentId) := by
      conv_lhs => rw [← List.take_append_drop preview.length live, ← hpre]
      rw [List.filter_append]
      rfl
    refine ⟨⟨?_, ?_⟩, ?_⟩
    · rw [hsplit, List.take_left]
    · exact Nat.le_trans (List.length_filter_le _ _) hlen
    · intro c hc
      have := (List.mem_filter.mp hc).2
      simpa using this
  · rintro live preview hs ⟨hpre, _⟩
    rw [hpre]
    exact List.Pairwise.sublist (List.take_sublist _ _) hs

/-- Example comment rows for the preview witness. -/
def exCommentA : CommentRow := ⟨7, 10, 1, "hello", 3⟩

/-- A second example comment row, newer than the first. -/
def exCommentB : CommentRow := ⟨8, 10, 2, "world", 5⟩

/-- Example store holding the two comments on post 10. -/
def exDbComments : DB := ⟨[1, 2], [⟨10, 2, 5⟩], [], [exCommentA, exCommentB]⟩

/-- C9 witness: the invariant theorem applied to the concrete store and to
concrete local-handler runs. -/
theorem c9_commentPreview_invariant_witness :
    previewInv (sortCommentsDesc (exDbComments.comments.filter fun c => c.postId == 10))
      (serverCommentsPreview exDbComments 10) ∧
    previewInv [exCommentB, exCommentA] (handleCommentAdded [exCommentA] exCommentB) ∧
    previewInv ([exCommentB, exCommentA].filter fun c => c.id != 7)
      (handleCommentDeleted [exCommentB, exCommentA] 7) := by
  have h := c9_commentPreview_invariant
  refine ⟨(h.1 exDbComments 10).1, ?_, (h.2.2.1 [exCommentB, exCommentA] [exCommentB, exCommentA] 7 ⟨by decide, by decide⟩).1⟩
  exact h.2.1 [exCommentA] [exCommentA] exCommentB ⟨by decide, by decide⟩

/-- What the SQL guarantees about the post query: ORDER BY created_at
DESC constrains the result to be some permutation of the table sorted by
descending creation time; no secondary key is requested, so tie order is
left to the storage engine. -/
def orderByCreatedAtDesc (table l : List PostRow) : Prop :=
  l.Perm table ∧ List.Sorted postRecency l

/-- range(offset, offset+limit-1) over an ordered result. -/
def pageSlice (l : List PostRow) (offset limit : Nat) : List PostRow :=
  (l.drop offset).take limit

/-- First example post; ties with the second on created_at. -/
def exPostA : PostRow := ⟨1, 1, 5⟩

/-- Second example post; ties with the first on created_at. -/
def exPostB : PostRow := ⟨2, 1, 5⟩

/-- C4 counterexample: with two posts sharing a creation timestamp, the
query contract (ORDER BY created_at DESC, no tiebreak) admits two result
orders; slicing page 0 from one and page 1 from the other duplicates one
post and omits the other.  Refutes the claim that the code orders with a
stable secondary key making page concatenation lossless. -/
theorem c4_pagination_counterexample :
    orderByCreatedAtDesc [exPostA, exPostB] [exPostA, exPostB] ∧
    orderByCreatedAtDesc [exPostA, exPostB] [exPostB, exPostA] ∧
    pageSlice [exPostA, exPostB] 0 1 ++ pageSlice [exPostB, exPostA] 1 1 =
      [exPostA, exPostA] := by
  refine ⟨⟨List.Perm.refl _, ?_⟩, ⟨List.Perm.swap _ _ _, ?_⟩, rfl⟩ <;>
    · constructor
      · intro b hb
        simp only [List.mem_singleton] at hb
        subst hb
        exact Nat.le_refl _
      · constructor
        · intro b hb
          simp at hb
        · constructor

/-- Concatenating consecutive fixed-size slices of one list is a take of
that list. -/
theorem bind_pageSlice (l : List PostRow) (limit n : Nat) :
    ((List.range n).flatMap fun i => pageSlice l (i * limit) limit) =
      l.take (n * limit) := by
  induction n with
  | zero => simp
  | succ m ih =>
    rw [List.range_succ, List.flatMap_append, ih]
    simp only [List.flatMap_cons, List.flatMap_nil, List.append_nil, pageSlice]
    rw [← List.take_add, Nat.succ_mul]

/-- C4 amended: each page holds at most limit posts sorted by descending
creation time, and over one fixed ordered result (here the insertion sort
the embedding uses for the storage order) the concatenation of enough
pages reproduces the whole reverse-chronological sequence, a permutation
of the table, with no duplicate and no omission.  The stability across
calls is a property of a fixed order, not of the query itself (see the
counterexample). -/
theorem c4_getPage_fixed_order (posts : List PostRow) (limit offset n : Nat)
    (hcov : posts.length ≤ n * limit) :
    (pageSlice (sortPostsDesc posts) offset limit).length ≤ limit ∧
    List.Sorted postRecency (pageSlice (sortPostsDesc posts) offset limit) ∧
    ((List.range n).flatMap fun i => pageSlice (sortPostsDesc posts) (i * limit) limit) =
      sortPostsDesc posts ∧
    (sortPostsDesc posts).Perm posts := by
  refine ⟨List.length_take_le _ _, ?_, ?_, List.perm_insertionSort _ _⟩
  · exact List.Pairwise.sublist
      ((List.take_sublist _ _).trans (List.drop_sublist _ _))
      (List.sorted_insertionSort postRecency _)
  · rw [bind_pageSlice]
    apply List.take_of_length_le
    rw [sortPostsDesc, (List.perm_insertionSort postRecency posts).length_eq]
    exact hcov

/-- C4 witness: the fixed-order page theorem applied to a concrete
three-post table read in two pages of two. -/
theorem c4_getPage_fixed_order_witness :
    (pageSlice (sortPostsDesc [⟨1, 1, 3⟩, ⟨2, 1, 7⟩, ⟨3, 1, 5⟩]) 0 2).length ≤ 2 ∧
    List.Sorted postRecency (pageSlice (sortPostsDesc [⟨1, 1, 3⟩, ⟨2, 1, 7⟩, ⟨3, 1, 5⟩]) 0 2) ∧
    ((List.range 2).flatMap fun i =>
        pageSlice (sortPostsDesc [⟨1, 1, 3⟩, ⟨2, 1, 7⟩, ⟨3, 1, 5⟩]) (i * 2) 2) =
      sortPostsDesc [⟨1, 1, 3⟩, ⟨2, 1, 7⟩, ⟨3, 1, 5⟩] ∧
    (sortPostsDesc [⟨1, 1, 3⟩, ⟨2, 1, 7⟩, ⟨3, 1, 5⟩]).Perm [⟨1, 1, 3⟩, ⟨2, 1, 7⟩, ⟨3, 1, 5⟩] :=
  c4_getPage_fixed_order [⟨1, 1, 3⟩, ⟨2, 1, 7⟩, ⟨3, 1, 5⟩] 2 0 2 (by decide)

/-- Outcome of the like mutation request as seen by the card: success
(response.ok), the 409 already-liked conflict, or any other failure
(non-ok status or thrown error). -/
inductive LikeRespOutcome
  | ok
  | conflict
  | err
deriving Repr, DecidableEq

/-- Local view state of a post card that the like handlers touch. -/
structure CardState where
  isLiked : Bool
  likesCount : Int
  isLoading : Bool
deriving Repr, DecidableEq

/-- PostCard.handleLikeClick: ignore when loading; snapshot the previous
values; apply the optimistic toggle; on the add path a 409 keeps the
applied state while any other failure restores the snapshot; on the
remove path every failure restores the snapshot; loading ends either
way. -/
def handleLikeClick (s : CardState) (resp : LikeRespOutcome) : CardState :=
  if s.isLoading then s
  else
    let previousIsLiked := s.isLiked
    let previousLikesCount := s.likesCount
    let optimistic : CardState :=
      ⟨!s.isLiked, if s.isLiked then s.likesCount - 1 else s.likesCount + 1, true⟩
    let settled : CardState :=
      if !previousIsLiked then
        match resp with
        | .ok => optimistic
        | .conflict => optimistic
        | .err =>
          { optimistic with isLiked := previousIsLiked, likesCount := previousLikesCount }
      else
        match resp with
        | .ok => optimistic
        | _ =>
          { optimistic with isLiked := previousIsLiked, likesCount := previousLikesCount }
    { settled with isLoading := false }

/-- C5: rollback restores the exact pre-mutation snapshot.  For a toggle
started from a non-loading state, every outcome other than success or the
add-path 409 conflict leaves likesCount and isLiked equal to the values
captured before the optimistic update. -/
theorem c5_rollback_restores_snapshot (s : CardState) (resp : LikeRespOutcome)
    (hload : s.isLoading = false)
    (hfail : resp = .err ∨ (s.isLiked = true ∧ resp ≠ .ok)) :
    (handleLikeClick s resp).isLiked = s.isLiked ∧
    (handleLikeClick s resp).likesCount = s.likesCount := by
  rcases hfail with rfl | ⟨hliked, hresp⟩
  · cases hb : s.isLiked <;> simp [handleLikeClick, hload, hb]
  · cases resp
    · exact absurd rfl hresp
    · simp [handleLikeClick, hload, hliked]
    · simp [handleLikeClick, hload, hliked]

/-- C5 witness: the rollback theorem applied to a concrete liked card
whose unlike request fails. -/
theorem c5_rollback_restores_snapshot_witness :
    (handleLikeClick ⟨true, 3, false⟩ .err).isLiked = true ∧
    (handleLikeClick ⟨true, 3, false⟩ .err).likesCount = 3 :=
  c5_rollback_restores_snapshot ⟨true, 3, false⟩ .err rfl (Or.inl rfl)

/-- Local state of a post card that the image tap handler touches. -/
structure TapState where
  isLiked : Bool
  isLoading : Bool
  lastTapTime : Nat
  likesCount : Int
deriving Repr, DecidableEq

/-- PostCard.handleImageClick: taps on a liked or loading card are
ignored; a tap whose delta to the recorded last tap is strictly positive
and strictly below 300 ms fires the like-add mutation once (optimistic
state applied, last tap reset to 0); any other tap only records its
timestamp.  The second component counts like-add requests fired by the
call. -/
def handleImageClick (s : TapState) (now : Nat) : TapState × Nat :=
  if s.isLiked || s.isLoading then (s, 0)
  else
    let timeDiff : Int := (now : Int) - (s.lastTapTime : Int)
    if timeDiff < 300 ∧ 0 < timeDiff then
      (⟨true, true, 0, s.likesCount + 1⟩, 1)
    else
      ({ s with lastTapTime := now }, 0)

/-- C6: gesture disambiguation.  From a not-liked, not-loading card with
no recorded tap (the recorded time 0 lies at least 300 ms before the
first tap, as epoch-milliseconds timestamps do), two taps spaced by a
strictly positive delta under 300 ms fire exactly one like-add request
and reset the last-tap time to 0, while two taps spaced more than 300 ms
apart fire none. -/
theorem c6_double_tap (s : TapState) (t1 t2 : Nat)
    (hliked : s.isLiked = false) (hload : s.isLoading = false)
    (hfresh : s.lastTapTime = 0) (ht1 : 300 ≤ t1) :
    (t1 < t2 → t2 - t1 < 300 →
      (handleImageClick s t1).2 +
          (handleImageClick (handleImageClick s t1).1 t2).2 = 1 ∧
        (handleImageClick (handleImageClick s t1).1 t2).1.lastTapTime = 0) ∧
    (t1 + 300 < t2 →
      (handleImageClick s t1).2 +
        (handleImageClick (handleImageClick s t1).1 t2).2 = 0) := by
  have h1 : handleImageClick s t1 = ({ s with lastTapTime := t1 }, 0) := by
    rw [handleImageClick, hliked, hload, hfresh]
    simp only [Bool.or_self, Bool.false_eq_true, if_false]
    rw [if_neg]
    omega
  rw [h1]
  constructor
  · intro hlt hnear
    rw [handleImageClick]
    simp only [hliked, hload, Bool.or_self, Bool.false_eq_true, if_false]
    rw [if_pos]
    · exact ⟨rfl, rfl⟩
    · exact ⟨by omega, by omega⟩
  · intro hfar
    rw [handleImageClick]
    simp only [hliked, hload, Bool.or_self, Bool.false_eq_true, if_false]
    rw [if_neg]
    all_goals omega

/-- Example tap-handler state: not liked, not loading, no tap recorded. -/
def exTapState : TapState := ⟨false, false, 0, 0⟩

/-- C6 witness: the disambiguation theorem applied to taps at 1000 ms and
1100 ms (double tap) and at 1000 ms and 2000 ms (two single taps). -/
theorem c6_double_tap_witness :
    ((handleImageClick exTapState 1000).2 +
        (handleImageClick (handleImageClick exTapState 1000).1 1100).2 = 1 ∧
      (handleImageClick (handleImageClick exTapState 1000).1 1100).1.lastTapTime = 0) ∧
    (handleImageClick exTapState 1000).2 +
      (handleImageClick (handleImageClick exTapState 1000).1 2000).2 = 0 :=
  ⟨(c6_double_tap exTapState 1000 1100 rfl rfl rfl (by decide)).1
      (by decide) (by decide),
   (c6_double_tap exTapState 1000 2000 rfl rfl rfl (by decide)).2 (by decide)⟩

/-- Comment count callbacks a card can receive. -/
inductive CommentEvent
  | added
  | deleted
deriving Repr, DecidableEq

/-- Effect of one callback on the local commentsCount:
handleCommentAdded increments, handleCommentDeleted applies
Math.max(0, prev - 1). -/
def commentsCountStep (count : Int) (e : CommentEvent) : Int :=
  match e with
  | .added => count + 1
  | .deleted => max 0 (count - 1)

/-- C10: the local commentsCount never becomes negative: from any
non-negative initial value, any sequence of added and deleted callbacks
leaves the folded count non-negative, the deleted step being floored at
zero. -/
theorem c10_commentsCount_nonneg (events : List CommentEvent) (c0 : Int)
    (h0 : 0 ≤ c0) : 0 ≤ events.foldl commentsCountStep c0 := by
  induction events generalizing c0 with
  | nil => exact h0
  | cons e t ih =>
    apply ih
    cases e <;> (simp only [commentsCountStep]; omega)

/-- C10 witness: more deletions than the initial count, applied through
the theorem at the concrete event list. -/
theorem c10_commentsCount_nonneg_witness :
    0 ≤ ([.deleted, .deleted, .added, .deleted, .deleted] :
        List CommentEvent).foldl commentsCountStep 1 :=
  c10_commentsCount_nonneg [.deleted, .deleted, .added, .deleted, .deleted] 1
    (by decide)

end MySns
